import Mathlib

/-!
Shallow embedding of the combat tracker component of the
`dmsecretweapon-backend` repository (`app/api/combat.py` together with the
data model in `app/models/combat.py`).

Python integers are modelled as `Int`; Python lists as `List`; the
process-wide dict `active_combats` as an association list with
insertion-ordered dict semantics; `HTTPException` as a structure carrying
the status code and detail string; handlers that can raise become
`Except HTTPException _`-valued functions.  Non-deterministic effects
(`uuid.uuid4()`, `datetime.utcnow()`) are passed in as explicit arguments.
-/

namespace DMCombat

/-- `Combatant` model (app/models/combat.py). -/
structure Combatant where
  id : String
  name : String
  initiative : Int
  hp_current : Int
  hp_max : Int
  ac : Option Int := none
  type : String := "npc"
  conditions : List String := []
  notes : String := ""
  monster_index : Option String := none
  deriving DecidableEq

/-- `CombatState` model (app/models/combat.py). -/
structure CombatState where
  id : String
  name : String := "Combat Encounter"
  combatants : List Combatant
  current_turn : Int := 0
  round_number : Int := 1
  is_active : Bool := true
  created_at : String
  updated_at : String
  deriving DecidableEq

/-- FastAPI's `HTTPException`, reduced to the fields the handlers use. -/
structure HTTPException where
  status_code : Nat
  detail : String
  deriving DecidableEq

/-- `AddCombatantRequest` model (app/models/combat.py). -/
structure AddCombatantRequest where
  combat_id : String
  name : String
  initiative : Int
  hp_current : Int
  hp_max : Int
  ac : Option Int := none
  type : String := "npc"
  monster_index : Option String := none
  deriving DecidableEq

/-- `UpdateHPRequest` model (app/models/combat.py). -/
structure UpdateHPRequest where
  combat_id : String
  combatant_id : String
  hp_change : Int
  deriving DecidableEq

/-- `AddConditionRequest` model (app/models/combat.py). -/
structure AddConditionRequest where
  combat_id : String
  combatant_id : String
  condition : String
  deriving DecidableEq

/-- `RemoveConditionRequest` model (app/models/combat.py). -/
structure RemoveConditionRequest where
  combat_id : String
  combatant_id : String
  condition : String
  deriving DecidableEq

/-- The dict `active_combats : Dict[str, CombatState]`. -/
abbrev Registry := List (String × CombatState)

/-- Python dict assignment `d[k] = v`: replace in place when the key is
present, append otherwise (dicts are insertion-ordered). -/
def dictSet (reg : Registry) (k : String) (v : CombatState) : Registry :=
  if (reg.lookup k).isSome then
    reg.map (fun p => if p.1 == k then (k, v) else p)
  else
    reg ++ [(k, v)]

/-- The comparator realised by
`combat.combatants.sort(key=lambda c: c.initiative, reverse=True)`:
CPython's sort is stable, and with `reverse=True` element `a` stays before
`b` exactly when `b.initiative <= a.initiative` (descending, ties stable). -/
def combatantLE (a b : Combatant) : Bool :=
  decide (b.initiative ≤ a.initiative)

/-- In-place mutation of the first combatant matching `p`
(`next((c for c in combat.combatants if ...), None)` followed by attribute
assignment mutates exactly that element of the list). -/
def updateFirst (p : Combatant → Bool) (f : Combatant → Combatant) :
    List Combatant → List Combatant
  | [] => []
  | a :: l => if p a then f a :: l else a :: updateFirst p f l

/-- Body of `create_combat` (combat.py): fresh session with no combatants,
turn 0, round 1, active. -/
def create_combat_state (combat_id name now : String) : CombatState :=
  { id := combat_id, name := name, combatants := [], current_turn := 0,
    round_number := 1, is_active := true, created_at := now, updated_at := now }

/-- Mutation part of `add_combatant` (combat.py): construct the combatant,
append it, then stable-sort by initiative descending. -/
def add_combatant_state (combat : CombatState) (c : Combatant) (now : String) :
    CombatState :=
  { combat with
    combatants := (combat.combatants ++ [c]).mergeSort combatantLE,
    updated_at := now }

/-- The `Combatant(...)` construction inside `add_combatant` (combat.py). -/
def mkCombatant (req : AddCombatantRequest) (new_id : String) : Combatant :=
  { id := new_id, name := req.name, initiative := req.initiative,
    hp_current := req.hp_current, hp_max := req.hp_max, ac := req.ac,
    type := req.type, conditions := [], notes := "",
    monster_index := req.monster_index }

/-- Combatant-level part of `update_hp` (combat.py):
`hp_current += hp_change` then `max(0, min(hp_current, hp_max))`. -/
def apply_hp_change (hp_change : Int) (c : Combatant) : Combatant :=
  { c with hp_current := max 0 (min (c.hp_current + hp_change) c.hp_max) }

/-- Body of `update_hp` (combat.py) after the session lookup. -/
def update_hp_state (combat : CombatState) (combatant_id : String)
    (hp_change : Int) (now : String) : Except HTTPException CombatState :=
  match combat.combatants.find? (fun c => c.id == combatant_id) with
  | none => .error { status_code := 404, detail := "Combatant not found" }
  | some _ => .ok
      { combat with
        combatants := updateFirst (fun c => c.id == combatant_id)
          (apply_hp_change hp_change) combat.combatants,
        updated_at := now }

/-- Combatant-level part of `add_condition` (combat.py): append the label
only when absent. -/
def add_condition_combatant (condition : String) (c : Combatant) : Combatant :=
  if condition ∈ c.conditions then c
  else { c with conditions := c.conditions ++ [condition] }

/-- Body of `add_condition` (combat.py) after the session lookup. -/
def add_condition_state (combat : CombatState) (combatant_id condition now : String) :
    Except HTTPException CombatState :=
  match combat.combatants.find? (fun c => c.id == combatant_id) with
  | none => .error { status_code := 404, detail := "Combatant not found" }
  | some _ => .ok
      { combat with
        combatants := updateFirst (fun c => c.id == combatant_id)
          (add_condition_combatant condition) combat.combatants,
        updated_at := now }

/-- Combatant-level part of `remove_condition` (combat.py):
`list.remove` of the first occurrence, only when present. -/
def remove_condition_combatant (condition : String) (c : Combatant) : Combatant :=
  if condition ∈ c.conditions then { c with conditions := c.conditions.erase condition }
  else c

/-- Body of `remove_condition` (combat.py) after the session lookup. -/
def remove_condition_state (combat : CombatState) (combatant_id condition now : String) :
    Except HTTPException CombatState :=
  match combat.combatants.find? (fun c => c.id == combatant_id) with
  | none => .error { status_code := 404, detail := "Combatant not found" }
  | some _ => .ok
      { combat with
        combatants := updateFirst (fun c => c.id == combatant_id)
          (remove_condition_combatant condition) combat.combatants,
        updated_at := now }

/-- Body of `next_turn` (combat.py) after the session lookup: reject an
empty initiative, else increment the turn and wrap (incrementing the round)
when the new value reaches the combatant count. -/
def next_turn_state (combat : CombatState) (now : String) :
    Except HTTPException CombatState :=
  if combat.combatants.isEmpty then
    .error { status_code := 400, detail := "No combatants in initiative" }
  else
    let t := combat.current_turn + 1
    if (combat.combatants.length : Int) ≤ t then
      .ok { combat with current_turn := 0,
                        round_number := combat.round_number + 1,
                        updated_at := now }
    else
      .ok { combat with current_turn := t, updated_at := now }

/-- Body of `remove_combatant` (combat.py) after the session lookup: filter
the id out, then reset `current_turn` to 0 when it is at or past the new
length and the new list is non-empty. -/
def remove_combatant_state (combat : CombatState) (combatant_id now : String) :
    CombatState :=
  let combatants := combat.combatants.filter (fun c => !(c.id == combatant_id))
  let t := if (combatants.length : Int) ≤ combat.current_turn ∧ combatants ≠ []
           then 0 else combat.current_turn
  { combat with combatants := combatants, current_turn := t, updated_at := now }

/-- Handler `create_combat` (combat.py): always succeeds, stores and
returns the fresh session. -/
def create_combat (reg : Registry) (combat_id name now : String) :
    CombatState × Registry :=
  let combat := create_combat_state combat_id name now
  (combat, dictSet reg combat_id combat)

/-- Handler `get_combat` (combat.py). -/
def get_combat (reg : Registry) (combat_id : String) :
    Except HTTPException CombatState :=
  match reg.lookup combat_id with
  | none => .error { status_code := 404, detail := "Combat not found" }
  | some combat => .ok combat

/-- Handler `add_combatant` (combat.py): session lookup first, then the
mutation; the response and the updated registry. -/
def add_combatant (reg : Registry) (req : AddCombatantRequest)
    (new_id now : String) : Except HTTPException (CombatState × Registry) :=
  match reg.lookup req.combat_id with
  | none => .error { status_code := 404, detail := "Combat not found" }
  | some combat =>
    let combat := add_combatant_state combat (mkCombatant req new_id) now
    .ok (combat, dictSet reg req.combat_id combat)

/-- Handler `update_hp` (combat.py). -/
def update_hp (reg : Registry) (req : UpdateHPRequest) (now : String) :
    Except HTTPException (CombatState × Registry) :=
  match reg.lookup req.combat_id with
  | none => .error { status_code := 404, detail := "Combat not found" }
  | some combat =>
    match update_hp_state combat req.combatant_id req.hp_change now with
    | .error e => .error e
    | .ok combat => .ok (combat, dictSet reg req.combat_id combat)

/-- Handler `add_condition` (combat.py). -/
def add_condition (reg : Registry) (req : AddConditionRequest) (now : String) :
    Except HTTPException (CombatState × Registry) :=
  match reg.lookup req.combat_id with
  | none => .error { status_code := 404, detail := "Combat not found" }
  | some combat =>
    match add_condition_state combat req.combatant_id req.condition now with
    | .error e => .error e
    | .ok combat => .ok (combat, dictSet reg req.combat_id combat)

/-- Handler `remove_condition` (combat.py). -/
def remove_condition (reg : Registry) (req : RemoveConditionRequest)
    (now : String) : Except HTTPException (CombatState × Registry) :=
  match reg.lookup req.combat_id with
  | none => .error { status_code := 404, detail := "Combat not found" }
  | some combat =>
    match remove_condition_state combat req.combatant_id req.condition now with
    | .error e => .error e
    | .ok combat => .ok (combat, dictSet reg req.combat_id combat)

/-- Handler `next_turn` (combat.py). -/
def next_turn (reg : Registry) (combat_id now : String) :
    Except HTTPException (CombatState × Registry) :=
  match reg.lookup combat_id with
  | none => .error { status_code := 404, detail := "Combat not found" }
  | some combat =>
    match next_turn_state combat now with
    | .error e => .error e
    | .ok combat => .ok (combat, dictSet reg combat_id combat)

/-- Handler `remove_combatant` (combat.py): silently succeeds when the
combatant id is absent. -/
def remove_combatant (reg : Registry) (combat_id combatant_id now : String) :
    Except HTTPException (CombatState × Registry) :=
  match reg.lookup combat_id with
  | none => .error { status_code := 404, detail := "Combat not found" }
  | some combat =>
    let combat := remove_combatant_state combat combatant_id now
    .ok (combat, dictSet reg combat_id combat)

/-- Handler `delete_combat` (combat.py): `del active_combats[combat_id]`. -/
def delete_combat (reg : Registry) (combat_id : String) :
    Except HTTPException Registry :=
  match reg.lookup combat_id with
  | none => .error { status_code := 404, detail := "Combat not found" }
  | some _ => .ok (reg.filter (fun p => !(p.1 == combat_id)))

/-- One tracker request, with the non-deterministic inputs (fresh ids,
timestamps) made explicit. -/
inductive TrackerOp where
  | createOp (combat_id name now : String)
  | addOp (req : AddCombatantRequest) (new_id now : String)
  | removeOp (combat_id combatant_id now : String)
  | nextOp (combat_id now : String)
  | hpOp (req : UpdateHPRequest) (now : String)
  | addCondOp (req : AddConditionRequest) (now : String)
  | removeCondOp (req : RemoveConditionRequest) (now : String)
  | deleteOp (combat_id : String)
  deriving DecidableEq

/-- Registry after serving one request: on error the handler raised before
any mutation, so the registry is unchanged. -/
def applyOp (reg : Registry) (op : TrackerOp) : Registry :=
  match op with
  | .createOp cid name now => (create_combat reg cid name now).2
  | .addOp req nid now =>
    match add_combatant reg req nid now with
    | .ok p => p.2
    | .error _ => reg
  | .removeOp cid combatant_id now =>
    match remove_combatant reg cid combatant_id now with
    | .ok p => p.2
    | .error _ => reg
  | .nextOp cid now =>
    match next_turn reg cid now with
    | .ok p => p.2
    | .error _ => reg
  | .hpOp req now =>
    match update_hp reg req now with
    | .ok p => p.2
    | .error _ => reg
  | .addCondOp req now =>
    match add_condition reg req now with
    | .ok p => p.2
    | .error _ => reg
  | .removeCondOp req now =>
    match remove_condition reg req now with
    | .ok p => p.2
    | .error _ => reg
  | .deleteOp cid =>
    match delete_combat reg cid with
    | .ok r => r
    | .error _ => reg

/-- Registry after a whole sequence of requests, starting from the empty
process state. -/
def runOps (ops : List TrackerOp) : Registry :=
  List.foldl applyOp [] ops

/-- `next_turn_state` iterated `n` times (same timestamp; the timestamp
does not influence control flow). -/
def iterateNext (n : Nat) (combat : CombatState) (now : String) :
    Except HTTPException CombatState :=
  match n with
  | 0 => .ok combat
  | n + 1 =>
    match next_turn_state combat now with
    | .ok c => iterateNext n c now
    | .error e => .error e

/-- `add_combatant_state` folded over a list of combatants, in order. -/
def addAll (combat : CombatState) (cs : List Combatant) (now : String) :
    CombatState :=
  match cs with
  | [] => combat
  | c :: cs => addAll (add_combatant_state combat c now) cs now

/-- Turn-cursor invariant of one session. -/
def turnInv (s : CombatState) : Prop :=
  0 ≤ s.current_turn ∧ s.current_turn < max 1 (s.combatants.length : Int)

/-- HP invariant of one session. -/
def hpInv (s : CombatState) : Prop :=
  ∀ c ∈ s.combatants, 0 ≤ c.hp_current ∧ c.hp_current ≤ c.hp_max

/-- An `addOp` whose request carries an in-range starting HP; other
operations are unconstrained. -/
def opHPOk : TrackerOp → Bool
  | .addOp req _ _ => decide (0 ≤ req.hp_current) && decide (req.hp_current ≤ req.hp_max)
  | _ => true

/-- No two combatants of the session share an id (uuid uniqueness). -/
def idsNodup (s : CombatState) : Prop := (s.combatants.map (fun c => c.id)).Nodup

/-- Well-formedness of one session: cursor in range and ids distinct. -/
def sessWF (s : CombatState) : Prop := turnInv s ∧ idsNodup s

/-- Well-formedness of the whole registry. -/
def regWF (reg : Registry) : Prop := ∀ p ∈ reg, sessWF p.2

/-- `uuid.uuid4()` freshness for one request: the id generated for an
`addOp` does not collide with an id already present in the target session.
All other requests are unconstrained. -/
def opFresh (reg : Registry) : TrackerOp → Bool
  | .addOp req new_id _ =>
    match reg.lookup req.combat_id with
    | none => true
    | some s => s.combatants.all (fun c => !(c.id == new_id))
  | _ => true

/-- `uuid.uuid4()` freshness along a whole request sequence. -/
def opsFresh : Registry → List TrackerOp → Bool
  | _, [] => true
  | reg, op :: ops => opFresh reg op && opsFresh (applyOp reg op) ops

/-! Concrete sample data used by witnesses, counterexamples and the
spec's scenarios. -/

/-- Fresh session used by the concrete scenarios. -/
def sampleCombat : CombatState := create_combat_state "s1" "Goblin Ambush" "t0"

/-- First combatant inserted with initiative 18 (scenario A). -/
def cmbA : Combatant :=
  { id := "c1", name := "Goblin A", initiative := 18, hp_current := 7, hp_max := 7 }

/-- Combatant inserted with initiative 12 (scenario A). -/
def cmbB : Combatant :=
  { id := "c2", name := "Goblin B", initiative := 12, hp_current := 7, hp_max := 7 }

/-- Second combatant inserted with initiative 18 (scenario A). -/
def cmbC : Combatant :=
  { id := "c3", name := "Goblin C", initiative := 18, hp_current := 7, hp_max := 7 }

/-- Combatant with `hp_max=20`, `hp_current=5` (scenario C). -/
def cmbH : Combatant :=
  { id := "h1", name := "Hero", initiative := 3, hp_current := 5, hp_max := 20 }

/-- Session holding only `cmbH` (scenario C). -/
def scenarioCState : CombatState := { sampleCombat with combatants := [cmbH] }

/-- A session with three combatants in initiative order, turn 0, round 1. -/
def sample3 : CombatState := { sampleCombat with combatants := [cmbA, cmbC, cmbB] }

/-- A session with two combatants and an out-of-range turn cursor. -/
def sampleOut : CombatState :=
  { sampleCombat with combatants := [cmbA, cmbB], current_turn := 5 }

/-- A session with two combatants whose cursor sits on the last one. -/
def sampleLast : CombatState :=
  { sampleCombat with combatants := [cmbA, cmbB], current_turn := 1 }

/-- Registry holding the single fresh session `"s1"` with no combatants. -/
def regOne : Registry := (create_combat [] "s1" "Encounter" "t0").2

/-- Add request whose starting HP exceeds its HP maximum. -/
def req2cex : AddCombatantRequest :=
  { combat_id := "s1", name := "Golem", initiative := 10,
    hp_current := 50, hp_max := 20 }

/-- HP invariant over the whole registry. -/
def regHP (reg : Registry) : Prop := ∀ p ∈ reg, hpInv p.2

/-- Add request with an in-range starting HP. -/
def reqOk : AddCombatantRequest :=
  { combat_id := "s1", name := "Hero", initiative := 3,
    hp_current := 5, hp_max := 20 }

/-- Request sequence: create, add `reqOk`, then 10 damage. -/
def sampleHPOps : List TrackerOp :=
  [TrackerOp.createOp "s1" "Enc" "t0",
   TrackerOp.addOp reqOk "c1" "t1",
   TrackerOp.hpOp { combat_id := "s1", combatant_id := "c1", hp_change := -10 } "t2"]

/-- The combatant `sampleHPOps` ends with. -/
def cmbRes : Combatant :=
  { id := "c1", name := "Hero", initiative := 3, hp_current := 0, hp_max := 20 }

/-- The session `sampleHPOps` ends with. -/
def sampleHPState : CombatState :=
  { id := "s1", name := "Enc", combatants := [cmbRes], current_turn := 0,
    round_number := 1, is_active := true, created_at := "t0", updated_at := "t2" }

/-! Helper lemmas. -/

theorem combatantLE_trans (a b c : Combatant)
    (h1 : combatantLE a b = true) (h2 : combatantLE b c = true) :
    combatantLE a c = true := by
  simp [combatantLE] at *; omega

theorem combatantLE_total (a b : Combatant) :
    (combatantLE a b || combatantLE b a) = true := by
  simp [combatantLE]; omega

theorem pair_sublist_append {α : Type} {x y : α} {A B : List α}
    (h : [x, y].Sublist (A ++ B)) :
    [x, y].Sublist A ∨ (x ∈ A ∧ y ∈ B) ∨ [x, y].Sublist B := by
  rcases List.sublist_append_iff.mp h with ⟨l₁, l₂, heq, h₁, h₂⟩
  rcases l₁ with _ | ⟨a, _ | ⟨b, t⟩⟩
  · right; right
    have hl : l₂ = [x, y] := by simpa using heq.symm
    exact hl ▸ h₂
  · rw [List.cons_append, List.nil_append] at heq
    injection heq with e1 e2
    right; left
    constructor
    · rw [e1]; exact List.singleton_sublist.mp h₁
    · have hy : [y].Sublist B := e2 ▸ h₂
      exact List.singleton_sublist.mp hy
  · left
    rw [List.cons_append, List.cons_append] at heq
    injection heq with e1 e2
    injection e2 with e3 e4
    have ht : t = [] := by
      cases t with
      | nil => rfl
      | cons u v => simp at e4
    rw [e1, e3]
    have h₁' : ([a, b] : List α).Sublist A := by
      rw [ht] at h₁
      exact h₁
    exact h₁'

theorem sublist_add_step (combat : CombatState) (c : Combatant) (now : String)
    (x y : Combatant) (h : [x, y].Sublist (combat.combatants ++ [c]))
    (hle : combatantLE x y = true) :
    [x, y].Sublist (add_combatant_state combat c now).combatants := by
  apply List.sublist_mergeSort combatantLE_trans combatantLE_total
  · simp [List.pairwise_cons, hle]
  · exact h

theorem addAll_stable (now : String) :
    ∀ (cs : List Combatant) (combat : CombatState) (x y : Combatant),
      [x, y].Sublist (combat.combatants ++ cs) → combatantLE x y = true →
      [x, y].Sublist (addAll combat cs now).combatants := by
  intro cs
  induction cs with
  | nil =>
    intro combat x y h hle
    simpa [addAll] using h
  | cons c cs ih =>
    intro combat x y h hle
    show [x, y].Sublist (addAll (add_combatant_state combat c now) cs now).combatants
    apply ih _ x y _ hle
    have h' : [x, y].Sublist ((combat.combatants ++ [c]) ++ cs) := by
      rw [List.append_assoc]
      simpa using h
    rcases pair_sublist_append h' with hA | ⟨hx, hy⟩ | hB
    · exact (sublist_add_step combat c now x y hA hle).trans
        (List.sublist_append_left _ _)
    · have hx' : [x].Sublist (add_combatant_state combat c now).combatants := by
        rw [List.singleton_sublist]
        simp only [add_combatant_state, List.mem_mergeSort]
        exact hx
      have hy' : [y].Sublist cs := List.singleton_sublist.mpr hy
      simpa using List.Sublist.append hx' hy'
    · exact hB.trans (List.sublist_append_right _ _)

theorem length_updateFirst (p : Combatant → Bool) (f : Combatant → Combatant) :
    ∀ l : List Combatant, (updateFirst p f l).length = l.length := by
  intro l
  induction l with
  | nil => rfl
  | cons a l ih =>
    by_cases h : p a = true
    · simp [updateFirst, h]
    · simp [updateFirst, h, ih]

theorem mem_updateFirst (p : Combatant → Bool) (f : Combatant → Combatant) :
    ∀ (l : List Combatant) (x : Combatant), x ∈ updateFirst p f l →
      x ∈ l ∨ ∃ y ∈ l, x = f y := by
  intro l
  induction l with
  | nil => intro x h; simp [updateFirst] at h
  | cons a l ih =>
    intro x h
    by_cases ha : p a = true
    · simp only [updateFirst, ha, if_pos, List.mem_cons] at h
      rcases h with h | h
      · right; exact ⟨a, List.mem_cons_self a l, h⟩
      · left; exact List.mem_cons_of_mem a h
    · simp only [updateFirst, ha, if_neg, Bool.false_eq_true, not_false_iff,
        List.mem_cons] at h
      rcases h with h | h
      · left; rw [h]; exact List.mem_cons_self a l
      · rcases ih x h with h' | ⟨y, hy, hxy⟩
        · left; exact List.mem_cons_of_mem a h'
        · right; exact ⟨y, List.mem_cons_of_mem a hy, hxy⟩

theorem map_updateFirst (p : Combatant → Bool) (f : Combatant → Combatant)
    (g : Combatant → String) (hg : ∀ c, g (f c) = g c) :
    ∀ l : List Combatant, (updateFirst p f l).map g = l.map g := by
  intro l
  induction l with
  | nil => rfl
  | cons a l ih =>
    by_cases h : p a = true
    · simp [updateFirst, h, hg]
    · simp [updateFirst, h, ih]

theorem find?_updateFirst (p : Combatant → Bool) (f : Combatant → Combatant) :
    ∀ (l : List Combatant) (c : Combatant), l.find? p = some c →
      p (f c) = true → (updateFirst p f l).find? p = some (f c) := by
  intro l
  induction l with
  | nil => intro c h; simp at h
  | cons a l ih =>
    intro c h hpf
    by_cases ha : p a = true
    · rw [List.find?_cons_of_pos _ ha] at h
      injection h with h
      subst h
      simp only [updateFirst, ha, if_pos]
      exact List.find?_cons_of_pos _ hpf
    · rw [List.find?_cons_of_neg _ (by simpa using ha)] at h
      simp only [updateFirst, ha, if_neg, Bool.false_eq_true, not_false_iff]
      rw [List.find?_cons_of_neg _ (by simpa using ha)]
      exact ih c h hpf

theorem lookup_mem {reg : Registry} {k : String} {v : CombatState}
    (h : reg.lookup k = some v) : (k, v) ∈ reg := by
  induction reg with
  | nil => simp at h
  | cons p reg ih =>
    rw [List.lookup] at h
    by_cases hk : (k == p.1) = true
    · rw [hk] at h
      injection h with h
      have hkp : k = p.1 := by simpa using hk
      have hp : (k, v) = p := by
        rw [hkp, ← h]
      rw [hp]
      exact List.mem_cons_self p reg
    · rw [Bool.not_eq_true] at hk
      rw [hk] at h
      exact List.mem_cons_of_mem p (ih h)

theorem mem_dictSet {reg : Registry} {k : String} {v : CombatState}
    {q : String × CombatState} (h : q ∈ dictSet reg k v) :
    q = (k, v) ∨ q ∈ reg := by
  unfold dictSet at h
  by_cases hs : (reg.lookup k).isSome
  · rw [if_pos hs] at h
    rcases List.mem_map.mp h with ⟨p, hp, hq⟩
    by_cases hk : p.1 == k
    · rw [if_pos hk] at hq
      left; exact hq.symm
    · rw [if_neg hk] at hq
      right; exact hq ▸ hp
  · rw [if_neg hs] at h
    rcases List.mem_append.mp h with h | h
    · right; exact h
    · left; simpa using h

theorem sessWF_create (cid name now : String) :
    sessWF (create_combat_state cid name now) := by
  constructor
  · constructor <;> simp [create_combat_state, turnInv]
  · simp [create_combat_state, idsNodup]

theorem length_add (s : CombatState) (c : Combatant) (now : String) :
    (add_combatant_state s c now).combatants.length = s.combatants.length + 1 := by
  simp [add_combatant_state, (List.mergeSort_perm _ _).length_eq]

theorem sessWF_add (s : CombatState) (c : Combatant) (now : String)
    (h : sessWF s) (hf : ∀ x ∈ s.combatants, x.id ≠ c.id) :
    sessWF (add_combatant_state s c now) := by
  obtain ⟨⟨h0, h1⟩, h2⟩ := h
  refine ⟨⟨h0, ?_⟩, ?_⟩
  · have hl := length_add s c now
    simp only [add_combatant_state] at *
    rw [hl]
    push_cast
    omega
  · have hperm : ((s.combatants ++ [c]).mergeSort combatantLE).map (fun c => c.id)
        |>.Perm ((s.combatants ++ [c]).map (fun c => c.id)) :=
      (List.mergeSort_perm _ _).map _
    simp only [idsNodup, add_combatant_state]
    rw [hperm.nodup_iff]
    rw [List.map_append]
    apply List.Nodup.append h2 (by simp)
    simp only [List.disjoint_left]
    intro a ha
    rcases List.mem_map.mp ha with ⟨x, hx, rfl⟩
    simp only [List.map_cons, List.map_nil, List.mem_cons, List.not_mem_nil, or_false]
    exact hf x hx

theorem filter_length_ge (cid : String) :
    ∀ l : List Combatant, (l.map (fun c => c.id)).Nodup →
      l.length ≤ (l.filter (fun c => !(c.id == cid))).length + 1 := by
  intro l
  induction l with
  | nil => simp
  | cons a l ih =>
    intro h
    simp only [List.map_cons, List.nodup_cons] at h
    obtain ⟨ha, hl⟩ := h
    by_cases hc : (a.id == cid) = true
    · have hacid : a.id = cid := by simpa using hc
      have hfl : l.filter (fun c => !(c.id == cid)) = l := by
        apply List.filter_eq_self.mpr
        intro x hx
        have : x.id ≠ cid := by
          intro he
          apply ha
          rw [hacid]
          exact List.mem_map.mpr ⟨x, hx, he⟩
        simpa using this
      simp [List.filter_cons, hc, hfl]
    · have hc' : (a.id == cid) = false := by simpa using hc
      simp only [List.filter_cons, hc', Bool.not_false, if_pos, List.length_cons]
      have := ih hl
      omega

theorem sessWF_remove (s : CombatState) (cid now : String) (h : sessWF s) :
    sessWF (remove_combatant_state s cid now) := by
  obtain ⟨⟨h0, h1⟩, h2⟩ := h
  have hsub : (s.combatants.filter (fun c => !(c.id == cid))).Sublist s.combatants :=
    List.filter_sublist _
  constructor
  · simp only [remove_combatant_state, turnInv]
    by_cases hcond : ((s.combatants.filter (fun c => !(c.id == cid))).length : Int) ≤
        s.current_turn ∧ s.combatants.filter (fun c => !(c.id == cid)) ≠ []
    · rw [if_pos hcond]
      have : 1 ≤ (s.combatants.filter (fun c => !(c.id == cid))).length := by
        cases he : s.combatants.filter (fun c => !(c.id == cid)) with
        | nil => exact absurd he hcond.2
        | cons x xs => simp
      constructor
      · omega
      · omega
    · rw [if_neg hcond]
      push_neg at hcond
      by_cases hlen : ((s.combatants.filter (fun c => !(c.id == cid))).length : Int) ≤
          s.current_turn
      · have hnil := hcond hlen
        have := filter_length_ge cid s.combatants h2
        rw [hnil] at this
        simp at this
        constructor
        · exact h0
        · rw [hnil]
          simp only [List.length_nil]
          omega
      · constructor
        · exact h0
        · push_neg at hlen
          omega
  · simp only [idsNodup, remove_combatant_state]
    exact h2.sublist (hsub.map _)


theorem sessWF_next (s : CombatState) (now : String) (s' : CombatState)
    (h : sessWF s) (hok : next_turn_state s now = .ok s') : sessWF s' := by
  obtain ⟨⟨h0, h1⟩, h2⟩ := h
  unfold next_turn_state at hok
  by_cases he : s.combatants.isEmpty
  · rw [if_pos he] at hok
    exact absurd hok (by simp)
  · rw [if_neg he] at hok
    have hlen : 1 ≤ s.combatants.length := by
      cases hc : s.combatants with
      | nil => rw [hc] at he; simp at he
      | cons x xs => simp [hc]
    by_cases hw : (s.combatants.length : Int) ≤ s.current_turn + 1
    · rw [if_pos hw] at hok
      injection hok with hok
      subst hok
      refine ⟨⟨?_, ?_⟩, ?_⟩
      · norm_num
      · simp
      · simpa [idsNodup] using h2
    · rw [if_neg hw] at hok
      injection hok with hok
      subst hok
      refine ⟨⟨?_, ?_⟩, ?_⟩
      · have hx : (0 : Int) ≤ s.current_turn + 1 := by omega
        simpa using hx
      · have hx : s.current_turn + 1 < max 1 (s.combatants.length : Int) := by omega
        simpa using hx
      · simpa [idsNodup] using h2

theorem sessWF_updateFirst (s : CombatState) (p : Combatant → Bool)
    (f : Combatant → Combatant) (now : String) (hid : ∀ c, (f c).id = c.id)
    (h : sessWF s) :
    sessWF { s with combatants := updateFirst p f s.combatants, updated_at := now } := by
  obtain ⟨⟨h0, h1⟩, h2⟩ := h
  refine ⟨⟨h0, ?_⟩, ?_⟩
  · simpa [length_updateFirst] using h1
  · simpa [idsNodup, map_updateFirst p f _ hid] using h2

theorem regWF_dictSet {reg : Registry} {k : String} {v : CombatState}
    (h : regWF reg) (hv : sessWF v) : regWF (dictSet reg k v) := by
  intro q hq
  rcases mem_dictSet hq with he | hm
  · rw [he]; exact hv
  · exact h q hm

theorem regWF_applyOp {reg : Registry} {op : TrackerOp}
    (h : regWF reg) (hf : opFresh reg op = true) : regWF (applyOp reg op) := by
  cases op with
  | createOp cid name now =>
    exact regWF_dictSet h (sessWF_create cid name now)
  | addOp req nid now =>
    simp only [applyOp, add_combatant]
    cases hlook : reg.lookup req.combat_id with
    | none => simpa [hlook] using h
    | some s =>
      simp only [hlook]
      have hs : sessWF s := h _ (lookup_mem hlook)
      have hfr : ∀ x ∈ s.combatants, x.id ≠ (mkCombatant req nid).id := by
        simp only [opFresh, hlook] at hf
        rw [List.all_eq_true] at hf
        intro x hx
        have := hf x hx
        simpa [mkCombatant] using this
      exact regWF_dictSet h (sessWF_add s (mkCombatant req nid) now hs hfr)
  | removeOp cid combatant_id now =>
    simp only [applyOp, remove_combatant]
    cases hlook : reg.lookup cid with
    | none => simpa [hlook] using h
    | some s =>
      simp only [hlook]
      exact regWF_dictSet h (sessWF_remove s combatant_id now (h _ (lookup_mem hlook)))
  | nextOp cid now =>
    simp only [applyOp, next_turn]
    cases hlook : reg.lookup cid with
    | none => simpa [hlook] using h
    | some s =>
      simp only [hlook]
      cases hnt : next_turn_state s now with
      | error e => simpa using h
      | ok s' =>
        simp only []
        exact regWF_dictSet h (sessWF_next s now s' (h _ (lookup_mem hlook)) hnt)
  | hpOp req now =>
    simp only [applyOp, update_hp]
    cases hlook : reg.lookup req.combat_id with
    | none => simpa [hlook] using h
    | some s =>
      simp only [hlook]
      cases hfind : s.combatants.find? (fun c => c.id == req.combatant_id) with
      | none => simp only [update_hp_state, hfind]; exact h
      | some c =>
        simp only [update_hp_state, hfind]
        exact regWF_dictSet h (sessWF_updateFirst s _ _ now (fun c => rfl)
          (h _ (lookup_mem hlook)))
  | addCondOp req now =>
    simp only [applyOp, add_condition]
    cases hlook : reg.lookup req.combat_id with
    | none => simpa [hlook] using h
    | some s =>
      simp only [hlook]
      cases hfind : s.combatants.find? (fun c => c.id == req.combatant_id) with
      | none => simp only [add_condition_state, hfind]; exact h
      | some c =>
        simp only [add_condition_state, hfind]
        refine regWF_dictSet h (sessWF_updateFirst s _ _ now ?_ (h _ (lookup_mem hlook)))
        intro c'
        simp only [add_condition_combatant]
        by_cases hc : req.condition ∈ c'.conditions <;> simp [hc]
  | removeCondOp req now =>
    simp only [applyOp, remove_condition]
    cases hlook : reg.lookup req.combat_id with
    | none => simpa [hlook] using h
    | some s =>
      simp only [hlook]
      cases hfind : s.combatants.find? (fun c => c.id == req.combatant_id) with
      | none => simp only [remove_condition_state, hfind]; exact h
      | some c =>
        simp only [remove_condition_state, hfind]
        refine regWF_dictSet h (sessWF_updateFirst s _ _ now ?_ (h _ (lookup_mem hlook)))
        intro c'
        simp only [remove_condition_combatant]
        by_cases hc : req.condition ∈ c'.conditions <;> simp [hc]
  | deleteOp cid =>
    simp only [applyOp, delete_combat]
    cases hlook : reg.lookup cid with
    | none => simpa [hlook] using h
    | some s =>
      simp only [hlook]
      intro q hq
      exact h q (List.mem_of_mem_filter hq)

theorem regWF_foldl :
    ∀ (ops : List TrackerOp) (reg : Registry), regWF reg →
      opsFresh reg ops = true → regWF (List.foldl applyOp reg ops) := by
  intro ops
  induction ops with
  | nil => intro reg h _; simpa using h
  | cons op ops ih =>
    intro reg h hf
    simp only [opsFresh, Bool.and_eq_true] at hf
    exact ih (applyOp reg op) (regWF_applyOp h hf.1) hf.2


/-- Claim C1: after any sequence of registry/tracker operations (with
uuid-fresh combatant ids), every session's turn cursor satisfies
`0 <= current_turn < max(1, length(combatants))`; in particular an empty
combatant sequence forces `current_turn = 0`. -/
theorem claim1_turn_cursor_invariant (ops : List TrackerOp)
    (hfresh : opsFresh [] ops = true) :
    ∀ p ∈ runOps ops,
      (0 ≤ p.2.current_turn ∧
        p.2.current_turn < max 1 (p.2.combatants.length : Int)) ∧
      (p.2.combatants = [] → p.2.current_turn = 0) := by
  intro p hp
  have hwf : regWF (runOps ops) :=
    regWF_foldl ops [] (by intro q hq; simp at hq) hfresh
  obtain ⟨⟨h0, h1⟩, _⟩ := hwf p hp
  refine ⟨⟨h0, h1⟩, ?_⟩
  intro he
  rw [he] at h1
  simp at h1
  omega

/-- Witness for C1 at a concrete one-request sequence. -/
theorem claim1_witness :
    (0 ≤ (create_combat_state "s1" "Encounter" "t0").current_turn ∧
      (create_combat_state "s1" "Encounter" "t0").current_turn <
        max 1 ((create_combat_state "s1" "Encounter" "t0").combatants.length : Int)) ∧
    ((create_combat_state "s1" "Encounter" "t0").combatants = [] →
      (create_combat_state "s1" "Encounter" "t0").current_turn = 0) :=
  claim1_turn_cursor_invariant [TrackerOp.createOp "s1" "Encounter" "t0"] (by decide)
    ("s1", create_combat_state "s1" "Encounter" "t0") (by decide)

/-- Scenario A of the spec evaluated on the embedding: inserting
initiatives 18, 12, 18 yields [first-18, second-18, 12]. -/
theorem scenarioA_names :
    (addAll sampleCombat [cmbA, cmbB, cmbC] "t1").combatants.map (fun c => c.name) =
      ["Goblin A", "Goblin C", "Goblin B"] := by
  simp [addAll, add_combatant_state, sampleCombat, create_combat_state,
    List.mergeSort, combatantLE, cmbA, cmbB, cmbC]


/-- Claim C3: after every successful AddCombatant the combatant sequence
is sorted by initiative descending, combatants with equal initiative keep
their relative insertion order across any sequence of additions, and the
18/12/18 insertion scenario yields [first-18, second-18, 12]. -/
theorem claim3_initiative_order :
    (∀ (combat : CombatState) (c : Combatant) (now : String),
        List.Pairwise (fun a b : Combatant => b.initiative ≤ a.initiative)
          (add_combatant_state combat c now).combatants) ∧
    (∀ (combat : CombatState) (cs : List Combatant) (now : String) (x y : Combatant),
        [x, y].Sublist (combat.combatants ++ cs) → x.initiative = y.initiative →
        [x, y].Sublist (addAll combat cs now).combatants) ∧
    (addAll sampleCombat [cmbA, cmbB, cmbC] "t1").combatants.map (fun c => c.name) =
      ["Goblin A", "Goblin C", "Goblin B"] := by
  refine ⟨?_, ?_, scenarioA_names⟩
  · intro combat c now
    have h := @List.sorted_mergeSort Combatant combatantLE combatantLE_trans
      combatantLE_total (combat.combatants ++ [c])
    exact h.imp (fun hab => by simpa [combatantLE] using hab)
  · intro combat cs now x y h htie
    exact addAll_stable now cs combat x y h (by simp [combatantLE, htie])

/-- Witness for C3: the two combatants of initiative 18 stay in insertion
order. -/
theorem claim3_witness :
    [cmbA, cmbC].Sublist (addAll sampleCombat [cmbA, cmbB, cmbC] "t1").combatants :=
  claim3_initiative_order.2.1 sampleCombat [cmbA, cmbB, cmbC] "t1" cmbA cmbC
    (by decide) (by decide)

/-- Claim C10: with at least one combatant, one AdvanceTurn call leaves
the (non-negative) cursor inside `[0, length(combatants))`, even when it
started at or past the combatant count. -/
theorem claim10_next_turn_restores (combat : CombatState) (now : String)
    (hne : combat.combatants ≠ []) (h0 : 0 ≤ combat.current_turn) :
    ∃ s', next_turn_state combat now = .ok s' ∧
      0 ≤ s'.current_turn ∧ s'.current_turn < (s'.combatants.length : Int) ∧
      s'.combatants = combat.combatants := by
  have hlen : 1 ≤ combat.combatants.length := by
    cases hc : combat.combatants with
    | nil => exact absurd hc hne
    | cons x xs => simp [hc]
  have he : combat.combatants.isEmpty = false := by
    simpa using hne
  unfold next_turn_state
  rw [he]
  by_cases hw : (combat.combatants.length : Int) ≤ combat.current_turn + 1
  · rw [if_pos hw]
    refine ⟨_, rfl, ?_, ?_, rfl⟩
    · norm_num
    · simp only []
      omega
  · rw [if_neg hw]
    refine ⟨_, rfl, ?_, ?_, rfl⟩
    · simp only []
      omega
    · simp only []
      omega

/-- Witness for C10 at a session whose cursor 5 exceeds its 2 combatants. -/
theorem claim10_witness :
    sampleOut.combatants ≠ [] ∧ 0 ≤ sampleOut.current_turn ∧
    ∃ s', next_turn_state sampleOut "t9" = .ok s' ∧
      0 ≤ s'.current_turn ∧ s'.current_turn < (s'.combatants.length : Int) ∧
      s'.combatants = sampleOut.combatants :=
  ⟨by decide, by decide,
    claim10_next_turn_restores sampleOut "t9" (by decide) (by decide)⟩


theorem iterateNext_round (now : String) :
    ∀ (k : Nat) (combat : CombatState), combat.combatants ≠ [] →
      0 ≤ combat.current_turn →
      combat.current_turn + (k : Int) = (combat.combatants.length : Int) →
      1 ≤ k →
      ∃ s', iterateNext k combat now = .ok s' ∧ s'.current_turn = 0 ∧
        s'.round_number = combat.round_number + 1 ∧
        s'.combatants = combat.combatants := by
  intro k
  induction k with
  | zero => intro combat _ _ _ hk; omega
  | succ k ih =>
    intro combat hne h0 hsum _
    have he : combat.combatants.isEmpty = false := by simpa using hne
    have hlen : 1 ≤ combat.combatants.length := by
      cases hc : combat.combatants with
      | nil => exact absurd hc hne
      | cons x xs => simp [hc]
    by_cases hw : (combat.combatants.length : Int) ≤ combat.current_turn + 1
    · have hk0 : k = 0 := by omega
      subst hk0
      have hstep : next_turn_state combat now =
          .ok { combat with current_turn := 0,
                            round_number := combat.round_number + 1,
                            updated_at := now } := by
        unfold next_turn_state
        rw [he]
        simp only [Bool.false_eq_true, if_neg, not_false_iff]
        rw [if_pos hw]
      refine ⟨{ combat with current_turn := 0,
                            round_number := combat.round_number + 1,
                            updated_at := now }, ?_, rfl, rfl, rfl⟩
      show iterateNext 1 combat now = _
      unfold iterateNext
      rw [hstep]
      rfl
    · have hk1 : 1 ≤ k := by omega
      have hstep : next_turn_state combat now =
          .ok { combat with current_turn := combat.current_turn + 1,
                            updated_at := now } := by
        unfold next_turn_state
        rw [he]
        simp only [Bool.false_eq_true, if_neg, not_false_iff]
        rw [if_neg hw]
      obtain ⟨s', hs', ht, hr, hc⟩ := ih
        { combat with current_turn := combat.current_turn + 1, updated_at := now }
        (by simpa using hne) (by simp only []; omega)
        (by simp only []; push_cast at hsum; omega) hk1
      refine ⟨s', ?_, ht, by simpa using hr, by simpa using hc⟩
      show iterateNext (k + 1) combat now = .ok s'
      unfold iterateNext
      rw [hstep]
      exact hs'


/-- Claim C4: AdvanceTurn on a non-empty session increments the cursor and
wraps to 0 incrementing the round exactly when the incremented value
reaches the combatant count; `length(combatants)` calls from (round 1,
turn 0) give (round 2, turn 0); no other operation ever changes
`round_number`, and `next_turn` changes it only by wrapping to 0. -/
theorem claim4_advance_turn (combat : CombatState) (now : String) :
    (combat.combatants ≠ [] →
      ∃ s', next_turn_state combat now = .ok s' ∧
        s'.combatants = combat.combatants ∧
        (combat.current_turn + 1 < (combat.combatants.length : Int) →
            s'.current_turn = combat.current_turn + 1 ∧
            s'.round_number = combat.round_number) ∧
        ((combat.combatants.length : Int) ≤ combat.current_turn + 1 →
            s'.current_turn = 0 ∧
            s'.round_number = combat.round_number + 1)) ∧
    (combat.combatants ≠ [] → combat.current_turn = 0 → combat.round_number = 1 →
      ∃ s', iterateNext combat.combatants.length combat now = .ok s' ∧
        s'.current_turn = 0 ∧ s'.round_number = 2) ∧
    (∀ s', next_turn_state combat now = .ok s' →
        (s'.round_number = combat.round_number ∧
          s'.current_turn = combat.current_turn + 1) ∨
        (s'.round_number = combat.round_number + 1 ∧ s'.current_turn = 0 ∧
          (combat.combatants.length : Int) ≤ combat.current_turn + 1)) ∧
    (∀ c, (add_combatant_state combat c now).round_number = combat.round_number) ∧
    (∀ cid, (remove_combatant_state combat cid now).round_number =
        combat.round_number) ∧
    (∀ cid δ s', update_hp_state combat cid δ now = .ok s' →
        s'.round_number = combat.round_number) ∧
    (∀ cid cond s', add_condition_state combat cid cond now = .ok s' →
        s'.round_number = combat.round_number) ∧
    (∀ cid cond s', remove_condition_state combat cid cond now = .ok s' →
        s'.round_number = combat.round_number) := by
  refine ⟨?_, ?_, ?_, ?_, ?_, ?_, ?_, ?_⟩
  · intro hne
    have he : combat.combatants.isEmpty = false := by simpa using hne
    unfold next_turn_state
    rw [he]
    simp only [Bool.false_eq_true, if_neg, not_false_iff]
    by_cases hw : (combat.combatants.length : Int) ≤ combat.current_turn + 1
    · rw [if_pos hw]
      exact ⟨_, rfl, rfl, fun hlt => absurd hw (by omega), fun _ => ⟨rfl, rfl⟩⟩
    · rw [if_neg hw]
      exact ⟨_, rfl, rfl, fun _ => ⟨rfl, rfl⟩, fun hge => absurd hge hw⟩
  · intro hne ht hr
    have hlen : 1 ≤ combat.combatants.length := by
      cases hc : combat.combatants with
      | nil => exact absurd hc hne
      | cons x xs => simp [hc]
    obtain ⟨s', hs', h0, hround, _⟩ :=
      iterateNext_round now combat.combatants.length combat hne (by omega)
        (by omega) hlen
    exact ⟨s', hs', h0, by omega⟩
  · intro s' hok
    unfold next_turn_state at hok
    by_cases he : combat.combatants.isEmpty
    · rw [if_pos he] at hok
      exact absurd hok (by simp)
    · rw [if_neg he] at hok
      by_cases hw : (combat.combatants.length : Int) ≤ combat.current_turn + 1
      · rw [if_pos hw] at hok
        injection hok with hok
        subst hok
        right
        exact ⟨rfl, rfl, hw⟩
      · rw [if_neg hw] at hok
        injection hok with hok
        subst hok
        left
        exact ⟨rfl, rfl⟩
  · intro c; rfl
  · intro cid; rfl
  · intro cid δ s' hok
    unfold update_hp_state at hok
    cases hfind : combat.combatants.find? (fun c => c.id == cid) with
    | none => rw [hfind] at hok; exact absurd hok (by simp)
    | some c =>
      rw [hfind] at hok
      injection hok with hok
      subst hok
      rfl
  · intro cid cond s' hok
    unfold add_condition_state at hok
    cases hfind : combat.combatants.find? (fun c => c.id == cid) with
    | none => rw [hfind] at hok; exact absurd hok (by simp)
    | some c =>
      rw [hfind] at hok
      injection hok with hok
      subst hok
      rfl
  · intro cid cond s' hok
    unfold remove_condition_state at hok
    cases hfind : combat.combatants.find? (fun c => c.id == cid) with
    | none => rw [hfind] at hok; exact absurd hok (by simp)
    | some c =>
      rw [hfind] at hok
      injection hok with hok
      subst hok
      rfl

/-- Witness for C4: three advances on a three-combatant session. -/
theorem claim4_witness :
    sample3.combatants ≠ [] ∧
    ∃ s', iterateNext sample3.combatants.length sample3 "t5" = .ok s' ∧
      s'.current_turn = 0 ∧ s'.round_number = 2 :=
  ⟨by decide, (claim4_advance_turn sample3 "t5").2.1 (by decide) (by decide) (by decide)⟩


/-- Claim C5: RemoveCombatant silently no-ops on an absent combatant id;
the cursor is only ever reset to 0 (never decremented), it is reset
whenever it is at or past the new length and the sequence is non-empty,
and removing the last-position combatant under the cursor resets it to 0. -/
theorem claim5_remove_combatant (combat : CombatState) (cid now : String) :
    ((∀ c ∈ combat.combatants, c.id ≠ cid) →
       (remove_combatant_state combat cid now).combatants = combat.combatants) ∧
    ((remove_combatant_state combat cid now).current_turn = 0 ∨
     (remove_combatant_state combat cid now).current_turn = combat.current_turn) ∧
    (((remove_combatant_state combat cid now).combatants.length : Int) ≤
        combat.current_turn →
      (remove_combatant_state combat cid now).combatants ≠ [] →
      (remove_combatant_state combat cid now).current_turn = 0) ∧
    (∀ (l : List Combatant) (c : Combatant),
      combat.combatants = l ++ [c] → c.id = cid → (∀ x ∈ l, x.id ≠ cid) →
      combat.current_turn = (l.length : Int) →
      (remove_combatant_state combat cid now).current_turn = 0) := by
  refine ⟨?_, ?_, ?_, ?_⟩
  · intro hno
    simp only [remove_combatant_state]
    apply List.filter_eq_self.mpr
    intro x hx
    simpa using hno x hx
  · simp only [remove_combatant_state]
    by_cases hcond : ((combat.combatants.filter (fun c => !(c.id == cid))).length : Int)
        ≤ combat.current_turn ∧ combat.combatants.filter (fun c => !(c.id == cid)) ≠ []
    · rw [if_pos hcond]; left; rfl
    · rw [if_neg hcond]; right; rfl
  · simp only [remove_combatant_state]
    intro hle hne
    rw [if_pos ⟨hle, hne⟩]
  · intro l c hl hcid hothers hturn
    have hfl : combat.combatants.filter (fun x => !(x.id == cid)) = l := by
      rw [hl, List.filter_append]
      have h1 : l.filter (fun x => !(x.id == cid)) = l :=
        List.filter_eq_self.mpr (fun x hx => by simpa using hothers x hx)
      have h2 : [c].filter (fun x => !(x.id == cid)) = [] := by
        simp [List.filter_cons, hcid]
      rw [h1, h2, List.append_nil]
    simp only [remove_combatant_state, hfl]
    cases hl0 : l with
    | nil =>
      have ht0 : combat.current_turn = 0 := by
        rw [hl0] at hturn; simpa using hturn
      have hnc : ¬(((([] : List Combatant).length : Int) ≤ combat.current_turn) ∧
          ([] : List Combatant) ≠ []) := by simp
      rw [if_neg hnc]
      exact ht0
    | cons x xs =>
      rw [← hl0]
      have hne : l ≠ [] := by rw [hl0]; simp
      have hle : ((l.length : Int)) ≤ combat.current_turn := by omega
      rw [if_pos ⟨hle, hne⟩]

/-- Witness for C5: removing the last element under the cursor. -/
theorem claim5_witness :
    (∀ x ∈ [cmbA], x.id ≠ cmbB.id) ∧
    (remove_combatant_state sampleLast cmbB.id "t7").current_turn = 0 :=
  ⟨by decide,
    (claim5_remove_combatant sampleLast cmbB.id "t7").2.2.2 [cmbA] cmbB
      (by decide) rfl (by decide) (by decide)⟩

/-- Claim C6: UpdateHP adds the delta and clamps into `[0, hp_max]` -
exactly 0 from below, exactly `hp_max` from above, the plain sum when in
range - and scenario C (5/20, delta -10 then +50) gives 0 then 20. -/
theorem claim6_update_hp_clamps (combat : CombatState) (cid : String)
    (hp_change : Int) (now : String) :
    (∀ c, combat.combatants.find? (fun x => x.id == cid) = some c →
      ∃ s', update_hp_state combat cid hp_change now = .ok s' ∧
        ∃ c', s'.combatants.find? (fun x => x.id == cid) = some c' ∧
          c'.hp_max = c.hp_max ∧
          (c.hp_current + hp_change < 0 → c'.hp_current = 0) ∧
          (c.hp_max < c.hp_current + hp_change → 0 ≤ c.hp_max →
            c'.hp_current = c.hp_max) ∧
          (0 ≤ c.hp_current + hp_change → c.hp_current + hp_change ≤ c.hp_max →
            c'.hp_current = c.hp_current + hp_change)) ∧
    ((update_hp_state scenarioCState "h1" (-10) "t1").toOption.map
        (fun s => s.combatants.map (fun c => c.hp_current)) = some [(0 : Int)] ∧
      ((update_hp_state scenarioCState "h1" (-10) "t1").toOption.bind
        (fun s => (update_hp_state s "h1" 50 "t2").toOption)).map
          (fun s => s.combatants.map (fun c => c.hp_current)) = some [(20 : Int)]) := by
  constructor
  · intro c hfind
    unfold update_hp_state
    rw [hfind]
    refine ⟨_, rfl, apply_hp_change hp_change c, ?_, rfl, ?_, ?_, ?_⟩
    · apply find?_updateFirst _ _ _ c hfind
      have hp := List.find?_some hfind
      simpa [apply_hp_change] using hp
    · intro h
      simp only [apply_hp_change]
      omega
    · intro h1 h2
      simp only [apply_hp_change]
      omega
    · intro h1 h2
      simp only [apply_hp_change]
      omega
  · exact ⟨by decide, by decide⟩


/-- Witness for C6 on the scenario-C combatant. -/
theorem claim6_witness :
    scenarioCState.combatants.find? (fun x => x.id == "h1") = some cmbH ∧
    ∃ s', update_hp_state scenarioCState "h1" (-10) "t1" = .ok s' ∧
      ∃ c', s'.combatants.find? (fun x => x.id == "h1") = some c' ∧
        c'.hp_max = cmbH.hp_max ∧
        (cmbH.hp_current + (-10) < 0 → c'.hp_current = 0) ∧
        (cmbH.hp_max < cmbH.hp_current + (-10) → 0 ≤ cmbH.hp_max →
          c'.hp_current = cmbH.hp_max) ∧
        (0 ≤ cmbH.hp_current + (-10) → cmbH.hp_current + (-10) ≤ cmbH.hp_max →
          c'.hp_current = cmbH.hp_current + (-10)) :=
  ⟨by decide,
    (claim6_update_hp_clamps scenarioCState "h1" (-10) "t1").1 cmbH (by decide)⟩

/-- Claim C7: AddCondition twice with one label equals once (no
duplicates), RemoveCondition of an absent label is the identity, and
neither case is an error when session and combatant exist. -/
theorem claim7_condition_idempotence (c : Combatant) (condition : String) :
    (add_condition_combatant condition (add_condition_combatant condition c) =
      add_condition_combatant condition c) ∧
    condition ∈ (add_condition_combatant condition c).conditions ∧
    (c.conditions.Nodup → (add_condition_combatant condition c).conditions.Nodup) ∧
    (condition ∉ c.conditions → remove_condition_combatant condition c = c) ∧
    (∀ (combat : CombatState) (cid now : String) (c' : Combatant),
      combat.combatants.find? (fun x => x.id == cid) = some c' →
      (∃ s, add_condition_state combat cid condition now = .ok s) ∧
      (∃ s, remove_condition_state combat cid condition now = .ok s)) := by
  refine ⟨?_, ?_, ?_, ?_, ?_⟩
  · by_cases h : condition ∈ c.conditions
    · simp [add_condition_combatant, h]
    · simp [add_condition_combatant, h]
  · by_cases h : condition ∈ c.conditions <;> simp [add_condition_combatant, h]
  · intro hnd
    by_cases h : condition ∈ c.conditions
    · simpa [add_condition_combatant, h] using hnd
    · simp [add_condition_combatant, h, List.nodup_append, hnd]
  · intro h
    simp [remove_condition_combatant, h]
  · intro combat cid now c' hfind
    constructor
    · unfold add_condition_state
      rw [hfind]
      exact ⟨_, rfl⟩
    · unfold remove_condition_state
      rw [hfind]
      exact ⟨_, rfl⟩

/-- Witness for C7 on a concrete combatant and labels. -/
theorem claim7_witness :
    (add_condition_combatant "Poisoned" (add_condition_combatant "Poisoned" cmbH) =
      add_condition_combatant "Poisoned" cmbH) ∧
    ("Poisoned" ∉ cmbH.conditions → remove_condition_combatant "Poisoned" cmbH = cmbH) ∧
    remove_condition_combatant "Stunned" cmbH = cmbH :=
  ⟨(claim7_condition_idempotence cmbH "Poisoned").1,
   (claim7_condition_idempotence cmbH "Poisoned").2.2.2.1,
   (claim7_condition_idempotence cmbH "Stunned").2.2.2.1 (by decide)⟩

/-- Counterexample to C2 as stated: AddCombatant stores `hp_current = 50`
against `hp_max = 20` unclamped, so creation does not enforce
`0 <= hp_current <= hp_max`. -/
theorem claim2_counterexample :
    (add_combatant regOne req2cex "c9" "t1").toOption.map
      (fun p => p.1.combatants.map (fun c => (c.hp_current, c.hp_max))) =
      some [((50 : Int), (20 : Int))] ∧ ¬((50 : Int) ≤ (20 : Int)) := by
  constructor
  · simp [add_combatant, regOne, create_combat, dictSet, create_combat_state,
      req2cex, add_combatant_state, mkCombatant, List.mergeSort, combatantLE,
      Except.toOption]
  · omega


theorem regHP_dictSet {reg : Registry} {k : String} {v : CombatState}
    (h : regHP reg) (hv : hpInv v) : regHP (dictSet reg k v) := by
  intro q hq
  rcases mem_dictSet hq with he | hm
  · rw [he]; exact hv
  · exact h q hm

theorem hpInv_updateFirst (s : CombatState) (p : Combatant → Bool)
    (f : Combatant → Combatant) (now : String)
    (hf : ∀ c ∈ s.combatants, 0 ≤ c.hp_current ∧ c.hp_current ≤ c.hp_max →
      0 ≤ (f c).hp_current ∧ (f c).hp_current ≤ (f c).hp_max)
    (h : hpInv s) :
    hpInv { s with combatants := updateFirst p f s.combatants, updated_at := now } := by
  intro c hc
  simp only [] at hc
  rcases mem_updateFirst p f s.combatants c hc with hm | ⟨y, hy, rfl⟩
  · exact h c hm
  · exact hf y hy (h y hy)

theorem regHP_applyOp {reg : Registry} {op : TrackerOp}
    (h : regHP reg) (hop : opHPOk op = true) : regHP (applyOp reg op) := by
  cases op with
  | createOp cid name now =>
    apply regHP_dictSet h
    intro c hc
    simp [create_combat_state] at hc
  | addOp req nid now =>
    simp only [applyOp, add_combatant]
    cases hlook : reg.lookup req.combat_id with
    | none => simpa [hlook] using h
    | some s =>
      simp only [hlook]
      apply regHP_dictSet h
      intro c hc
      simp only [add_combatant_state, List.mem_mergeSort, List.mem_append,
        List.mem_cons, List.not_mem_nil, or_false] at hc
      rcases hc with hc | rfl
      · exact h _ (lookup_mem hlook) c hc
      · simp only [opHPOk, Bool.and_eq_true, decide_eq_true_eq] at hop
        simpa [mkCombatant] using hop
  | removeOp cid combatant_id now =>
    simp only [applyOp, remove_combatant]
    cases hlook : reg.lookup cid with
    | none => simpa [hlook] using h
    | some s =>
      simp only [hlook]
      apply regHP_dictSet h
      intro c hc
      simp only [remove_combatant_state] at hc
      exact h _ (lookup_mem hlook) c (List.mem_of_mem_filter hc)
  | nextOp cid now =>
    simp only [applyOp, next_turn]
    cases hlook : reg.lookup cid with
    | none => simpa [hlook] using h
    | some s =>
      simp only [hlook]
      cases hnt : next_turn_state s now with
      | error e => simpa using h
      | ok s' =>
        simp only []
        apply regHP_dictSet h
        have hs := h _ (lookup_mem hlook)
        unfold next_turn_state at hnt
        by_cases he : s.combatants.isEmpty
        · rw [if_pos he] at hnt; exact absurd hnt (by simp)
        · rw [if_neg he] at hnt
          by_cases hw : (s.combatants.length : Int) ≤ s.current_turn + 1
          · rw [if_pos hw] at hnt
            injection hnt with hnt
            subst hnt
            intro c hc
            exact hs c hc
          · rw [if_neg hw] at hnt
            injection hnt with hnt
            subst hnt
            intro c hc
            exact hs c hc
  | hpOp req now =>
    simp only [applyOp, update_hp]
    cases hlook : reg.lookup req.combat_id with
    | none => simpa [hlook] using h
    | some s =>
      simp only [hlook]
      cases hfind : s.combatants.find? (fun c => c.id == req.combatant_id) with
      | none => simp only [update_hp_state, hfind]; exact h
      | some c =>
        simp only [update_hp_state, hfind]
        apply regHP_dictSet h
        apply hpInv_updateFirst s _ _ now ?_ (h _ (lookup_mem hlook))
        intro c' _ hc'
        simp only [apply_hp_change]
        omega
  | addCondOp req now =>
    simp only [applyOp, add_condition]
    cases hlook : reg.lookup req.combat_id with
    | none => simpa [hlook] using h
    | some s =>
      simp only [hlook]
      cases hfind : s.combatants.find? (fun c => c.id == req.combatant_id) with
      | none => simp only [add_condition_state, hfind]; exact h
      | some c =>
        simp only [add_condition_state, hfind]
        apply regHP_dictSet h
        apply hpInv_updateFirst s _ _ now ?_ (h _ (lookup_mem hlook))
        intro c' _ hc'
        simp only [add_condition_combatant]
        by_cases hc : req.condition ∈ c'.conditions <;> simpa [hc] using hc'
  | removeCondOp req now =>
    simp only [applyOp, remove_condition]
    cases hlook : reg.lookup req.combat_id with
    | none => simpa [hlook] using h
    | some s =>
      simp only [hlook]
      cases hfind : s.combatants.find? (fun c => c.id == req.combatant_id) with
      | none => simp only [remove_condition_state, hfind]; exact h
      | some c =>
        simp only [remove_condition_state, hfind]
        apply regHP_dictSet h
        apply hpInv_updateFirst s _ _ now ?_ (h _ (lookup_mem hlook))
        intro c' _ hc'
        simp only [remove_condition_combatant]
        by_cases hc : req.condition ∈ c'.conditions <;> simpa [hc] using hc'
  | deleteOp cid =>
    simp only [applyOp, delete_combat]
    cases hlook : reg.lookup cid with
    | none => simpa [hlook] using h
    | some s =>
      simp only [hlook]
      intro q hq
      exact h q (List.mem_of_mem_filter hq)

theorem regHP_foldl :
    ∀ (ops : List TrackerOp) (reg : Registry), regHP reg →
      ops.all opHPOk = true → regHP (List.foldl applyOp reg ops) := by
  intro ops
  induction ops with
  | nil => intro reg h _; simpa using h
  | cons op ops ih =>
    intro reg h hf
    simp only [List.all_cons, Bool.and_eq_true] at hf
    exact ih (applyOp reg op) (regHP_applyOp h hf.1) hf.2

/-- Claim C2 (amended): UpdateHP always clamps into `[0, hp_max]`, and
provided every combatant is created with `0 <= hp_current <= hp_max`
(AddCombatant itself does not clamp), every combatant of every session
satisfies `0 <= hp_current <= hp_max` after any sequence of operations. -/
theorem claim2_amended_hp_invariant (ops : List TrackerOp)
    (hops : ops.all opHPOk = true) :
    ∀ p ∈ runOps ops, ∀ c ∈ p.2.combatants,
      0 ≤ c.hp_current ∧ c.hp_current ≤ c.hp_max := by
  intro p hp
  exact regHP_foldl ops [] (by intro q hq; simp at hq) hops p hp


theorem runOps_sampleHPOps : runOps sampleHPOps = [("s1", sampleHPState)] := by
  simp [runOps, sampleHPOps, applyOp, create_combat, create_combat_state, dictSet,
    add_combatant, add_combatant_state, mkCombatant, reqOk, update_hp,
    update_hp_state, updateFirst, apply_hp_change, List.mergeSort, combatantLE,
    sampleHPState, cmbRes]

/-- Witness for amended C2 after create, add, and 10 damage. -/
theorem claim2_amended_witness :
    0 ≤ cmbRes.hp_current ∧ cmbRes.hp_current ≤ cmbRes.hp_max :=
  claim2_amended_hp_invariant sampleHPOps (by decide) ("s1", sampleHPState)
    (by rw [runOps_sampleHPOps]; exact List.mem_singleton.mpr rfl)
    cmbRes (by decide)


/-- Counterexample to C8 as stated: on a registry holding session "s1"
with no combatants, `remove_combatant` addressed at the absent combatant
"ghost" succeeds instead of failing NotFound. -/
theorem claim8_counterexample :
    (regOne.lookup "s1").isSome = true ∧
    ((regOne.lookup "s1").map (fun s => s.combatants)) = some [] ∧
    (remove_combatant regOne "s1" "ghost" "t1").toOption.isSome = true := by
  refine ⟨by decide, by decide, by decide⟩

/-- Claim C8 (amended): every operation checks session existence first and
fails NotFound (404 "Combat not found") exactly when the session is
absent; UpdateHP and Add/RemoveCondition additionally fail NotFound
(404 "Combatant not found") exactly when the combatant is absent;
AdvanceTurn fails InvalidState (400) exactly when the session exists with
zero combatants; RemoveCombatant succeeds whenever the session exists;
and every error leaves the registry unchanged. -/
theorem claim8_amended_error_semantics (reg : Registry) :
    (∀ cid, reg.lookup cid = none →
      get_combat reg cid = .error { status_code := 404, detail := "Combat not found" }) ∧
    (∀ cid s, reg.lookup cid = some s → get_combat reg cid = .ok s) ∧
    (∀ req nid now, reg.lookup req.combat_id = none →
      add_combatant reg req nid now =
        .error { status_code := 404, detail := "Combat not found" } ∧
      applyOp reg (.addOp req nid now) = reg) ∧
    (∀ req nid now s, reg.lookup req.combat_id = some s →
      (add_combatant reg req nid now).toOption.isSome = true) ∧
    (∀ req now, reg.lookup req.combat_id = none →
      update_hp reg req now =
        .error { status_code := 404, detail := "Combat not found" } ∧
      applyOp reg (.hpOp req now) = reg) ∧
    (∀ req now s, reg.lookup req.combat_id = some s →
      s.combatants.find? (fun c => c.id == req.combatant_id) = none →
      update_hp reg req now =
        .error { status_code := 404, detail := "Combatant not found" } ∧
      applyOp reg (.hpOp req now) = reg) ∧
    (∀ req now s c, reg.lookup req.combat_id = some s →
      s.combatants.find? (fun x => x.id == req.combatant_id) = some c →
      (update_hp reg req now).toOption.isSome = true) ∧
    (∀ req now, reg.lookup req.combat_id = none →
      add_condition reg req now =
        .error { status_code := 404, detail := "Combat not found" } ∧
      applyOp reg (.addCondOp req now) = reg) ∧
    (∀ req now s, reg.lookup req.combat_id = some s →
      s.combatants.find? (fun c => c.id == req.combatant_id) = none →
      add_condition reg req now =
        .error { status_code := 404, detail := "Combatant not found" } ∧
      applyOp reg (.addCondOp req now) = reg) ∧
    (∀ req now s c, reg.lookup req.combat_id = some s →
      s.combatants.find? (fun x => x.id == req.combatant_id) = some c →
      (add_condition reg req now).toOption.isSome = true) ∧
    (∀ req now, reg.lookup req.combat_id = none →
      remove_condition reg req now =
        .error { status_code := 404, detail := "Combat not found" } ∧
      applyOp reg (.removeCondOp req now) = reg) ∧
    (∀ req now s, reg.lookup req.combat_id = some s →
      s.combatants.find? (fun c => c.id == req.combatant_id) = none →
      remove_condition reg req now =
        .error { status_code := 404, detail := "Combatant not found" } ∧
      applyOp reg (.removeCondOp req now) = reg) ∧
    (∀ req now s c, reg.lookup req.combat_id = some s →
      s.combatants.find? (fun x => x.id == req.combatant_id) = some c →
      (remove_condition reg req now).toOption.isSome = true) ∧
    (∀ cid now, reg.lookup cid = none →
      next_turn reg cid now =
        .error { status_code := 404, detail := "Combat not found" } ∧
      applyOp reg (.nextOp cid now) = reg) ∧
    (∀ cid now s, reg.lookup cid = some s → s.combatants = [] →
      next_turn reg cid now =
        .error { status_code := 400, detail := "No combatants in initiative" } ∧
      applyOp reg (.nextOp cid now) = reg) ∧
    (∀ cid now s, reg.lookup cid = some s → s.combatants ≠ [] →
      (next_turn reg cid now).toOption.isSome = true) ∧
    (∀ cid combatant_id now, reg.lookup cid = none →
      remove_combatant reg cid combatant_id now =
        .error { status_code := 404, detail := "Combat not found" } ∧
      applyOp reg (.removeOp cid combatant_id now) = reg) ∧
    (∀ cid combatant_id now s, reg.lookup cid = some s →
      (remove_combatant reg cid combatant_id now).toOption.isSome = true) ∧
    (∀ cid, reg.lookup cid = none →
      delete_combat reg cid =
        .error { status_code := 404, detail := "Combat not found" } ∧
      applyOp reg (.deleteOp cid) = reg) ∧
    (∀ cid s, reg.lookup cid = some s →
      (delete_combat reg cid).toOption.isSome = true) := by
  refine ⟨?_, ?_, ?_, ?_, ?_, ?_, ?_, ?_, ?_, ?_, ?_, ?_, ?_, ?_, ?_, ?_, ?_, ?_, ?_, ?_⟩
  · intro cid h; simp [get_combat, h]
  · intro cid s h; simp [get_combat, h]
  · intro req nid now h
    exact ⟨by simp [add_combatant, h], by simp [applyOp, add_combatant, h]⟩
  · intro req nid now s h
    simp [add_combatant, h, Except.toOption]
  · intro req now h
    exact ⟨by simp [update_hp, h], by simp [applyOp, update_hp, h]⟩
  · intro req now s h hfind
    constructor
    · simp [update_hp, h, update_hp_state, hfind]
    · simp [applyOp, update_hp, h, update_hp_state, hfind]
  · intro req now s c h hfind
    simp [update_hp, h, update_hp_state, hfind, Except.toOption]
  · intro req now h
    exact ⟨by simp [add_condition, h], by simp [applyOp, add_condition, h]⟩
  · intro req now s h hfind
    constructor
    · simp [add_condition, h, add_condition_state, hfind]
    · simp [applyOp, add_condition, h, add_condition_state, hfind]
  · intro req now s c h hfind
    simp [add_condition, h, add_condition_state, hfind, Except.toOption]
  · intro req now h
    exact ⟨by simp [remove_condition, h], by simp [applyOp, remove_condition, h]⟩
  · intro req now s h hfind
    constructor
    · simp [remove_condition, h, remove_condition_state, hfind]
    · simp [applyOp, remove_condition, h, remove_condition_state, hfind]
  · intro req now s c h hfind
    simp [remove_condition, h, remove_condition_state, hfind, Except.toOption]
  · intro cid now h
    exact ⟨by simp [next_turn, h], by simp [applyOp, next_turn, h]⟩
  · intro cid now s h hempty
    constructor
    · simp [next_turn, h, next_turn_state, hempty]
    · simp [applyOp, next_turn, h, next_turn_state, hempty]
  · intro cid now s h hne
    have he : s.combatants.isEmpty = false := by simpa using hne
    by_cases hw : (s.combatants.length : Int) ≤ s.current_turn + 1
    · simp [next_turn, h, next_turn_state, he, hw, Except.toOption]
    · simp [next_turn, h, next_turn_state, he, hw, Except.toOption]
  · intro cid combatant_id now h
    exact ⟨by simp [remove_combatant, h], by simp [applyOp, remove_combatant, h]⟩
  · intro cid combatant_id now s h
    simp [remove_combatant, h, Except.toOption]
  · intro cid h
    exact ⟨by simp [delete_combat, h], by simp [applyOp, delete_combat, h]⟩
  · intro cid s h
    simp [delete_combat, h, Except.toOption]

/-- Witness for amended C8 on the one-session registry. -/
theorem claim8_amended_witness :
    next_turn regOne "s1" "t3" =
      .error { status_code := 400, detail := "No combatants in initiative" } ∧
    applyOp regOne (.nextOp "s1" "t3") = regOne ∧
    update_hp regOne { combat_id := "s1", combatant_id := "ghost", hp_change := 1 } "t3" =
      .error { status_code := 404, detail := "Combatant not found" } ∧
    get_combat regOne "s2" =
      .error { status_code := 404, detail := "Combat not found" } := by
  have h := claim8_amended_error_semantics regOne
  refine ⟨?_, ?_, ?_, ?_⟩
  · exact (h.2.2.2.2.2.2.2.2.2.2.2.2.2.2.1 "s1" "t3"
      (create_combat_state "s1" "Encounter" "t0") (by decide) (by decide)).1
  · exact (h.2.2.2.2.2.2.2.2.2.2.2.2.2.2.1 "s1" "t3"
      (create_combat_state "s1" "Encounter" "t0") (by decide) (by decide)).2
  · exact (h.2.2.2.2.2.1 { combat_id := "s1", combatant_id := "ghost", hp_change := 1 }
      "t3" (create_combat_state "s1" "Encounter" "t0") (by decide) (by decide)).1
  · exact h.1 "s2" (by decide)

end DMCombat
